import Mathlib

/-
Verification of the capture/stitch core of capture_nationsmap.js
(src/antirizz.js) and of the computeDays helper of the marker scraper
(src/.github/workflows/scraper.js), via a shallow embedding in Lean.

Conventions of the embedding:
  - JavaScript numbers that the program only ever holds as integers
    (step counts, pixel offsets) are modelled as Nat or Int.
  - The arithmetic done on fractional values (Math.round(x * 0.75),
    bank / upkeep) is modelled exactly over the rationals; for the
    inputs the program feeds it, the JavaScript double computation is
    exact as well.
  - The external renderer is modelled by the sequence of fingerprints
    the successive captures would produce: a function from the pan
    iteration index to the MD5 hash, hashes themselves abstracted as
    naturals.
  - Fallible operations return Option: none is the thrown error.
-/

namespace Antirizz

/-- Capture viewport width, src/antirizz.js line 30. -/
def VIEWPORT_width : Nat := 1280

/-- Capture viewport height, src/antirizz.js line 30. -/
def VIEWPORT_height : Nat := 800

/-- Fraction of the viewport panned per step, src/antirizz.js line 31. -/
def STEP_FRACTION : ℚ := 3 / 4

/-- How many identical captures in a row indicate the edge,
src/antirizz.js line 33. -/
def MAX_IDENTICAL_TO_EDGE : Nat := 3

/-- Retry count for canvas capture, src/antirizz.js line 36. -/
def RETRY_ATTEMPTS : Nat := 3

/-- Iteration safety cap of the two edge-scan loops,
src/antirizz.js lines 133 and 175. -/
def EDGE_SCAN_CAP : Nat := 2000

/-- JavaScript Math.round on an exact rational: round half toward
positive infinity, i.e. the floor of x + 1/2. -/
def mathRound (q : ℚ) : ℤ := ⌊q + 1 / 2⌋

/-- Magnitude of the horizontal pan step,
Math.round(VIEWPORT.width * STEP_FRACTION), src/antirizz.js
lines 129, 218, 239 and 293. -/
def stepXmag : ℤ := mathRound (VIEWPORT_width * STEP_FRACTION)

/-- Magnitude of the vertical pan step,
Math.round(VIEWPORT.height * STEP_FRACTION), src/antirizz.js
lines 171, 212, 240 and 294. -/
def stepYmag : ℤ := mathRound (VIEWPORT_height * STEP_FRACTION)

/-!  Edge scanning (findEdgeHoriz, src/antirizz.js lines 127-157, and
findEdgeVert, lines 170-196; both loops are identical up to the axis
panned, so they share one embedding over the capture sequence). -/

/-- Body of the edge-scan loop.  State: current iteration index i,
remaining iterations (the safety cap), the run-length counter of
consecutive identical fingerprints, and the fingerprint of the
previous capture (initialised to the pre-scan capture's hash).
Iteration i pans once, captures fingerprint capture i, updates the
counter exactly as lines 138-143 do, and returns steps = i + 1
together with the last hash once the counter reaches the threshold
(lines 151-154).  Exhausting the cap is the thrown error (line 156). -/
def scanAux (capture : Nat → Nat) (threshold : Nat) :
    Nat → Nat → Nat → Nat → Option (Nat × Nat)
  | _, 0, _, _ => none
  | i, fuel + 1, identicalCount, lastHash =>
    let h := capture i
    if h = lastHash then
      if threshold ≤ identicalCount + 1 then some (i + 1, lastHash)
      else scanAux capture threshold (i + 1) fuel (identicalCount + 1) lastHash
    else
      if threshold ≤ 0 then some (i + 1, h)
      else scanAux capture threshold (i + 1) fuel 0 h

/-- One full edge scan: the loop of findEdgeHoriz / findEdgeVert run
from iteration 0 with counter 0 and lastHash = initialHash, for at
most EDGE_SCAN_CAP iterations, with the MAX_IDENTICAL_TO_EDGE
threshold. -/
def findEdge (capture : Nat → Nat) (initialHash : Nat) : Option (Nat × Nat) :=
  scanAux capture MAX_IDENTICAL_TO_EDGE 0 EDGE_SCAN_CAP 0 initialHash

/-- Which scan attempts the driver made on one axis. -/
inductive ScanAttempt where
  | first
  | second
deriving DecidableEq, Repr

/-- Direction-fallback driver for one axis (the try/catch around
findEdgeHoriz at src/antirizz.js lines 160-166 and around
findEdgeVert at lines 198-204): run the scan with the capture
sequence of the first direction; only if it throws, run it once more
with the capture sequence of the opposite direction. -/
def driveAxis (captFirst captSecond : Nat → Nat) (init : Nat) :
    Option (Nat × Nat) :=
  match findEdge captFirst init with
  | some meta => some meta
  | none => findEdge captSecond init

/-- The sequence of scan attempts driveAxis performs. -/
def scanAttempts (captFirst : Nat → Nat) (init : Nat) : List ScanAttempt :=
  match findEdge captFirst init with
  | some _ => [ScanAttempt.first]
  | none => [ScanAttempt.first, ScanAttempt.second]

/-!  Grid sizing (src/antirizz.js lines 228-230). -/

/-- The grid dimensions derived from the two edge scans. -/
structure GridSpec where
  cols : Nat
  rows : Nat
deriving DecidableEq, Repr

/-- cols = horizMeta.steps + 1, rows = vertMeta.steps + 1
(src/antirizz.js lines 228-229); each meta is a (steps, lastHash)
pair as returned by findEdge. -/
def gridFromScans (horizMeta vertMeta : Nat × Nat) : GridSpec :=
  { cols := horizMeta.1 + 1, rows := vertMeta.1 + 1 }

/-!  Raster sweep (src/antirizz.js lines 250-282).  The nested loops
capture one tile per grid cell; `saved` collects, row by row, the
coordinates (r, c) under which each captured tile is stored
(tile_r{r}_c{c}.png). -/

/-- One row of the raster sweep: the inner column loop of line 253,
capturing cell (r, c) for c = 0 .. cols-1 in ascending order. -/
def sweepRow (r cols : Nat) : List (Nat × Nat) :=
  (List.range cols).map (fun c => (r, c))

/-- The saved rows-of-tiles structure built by the sweep
(src/antirizz.js lines 250-282): outer loop over r = 0 .. rows-1. -/
def sweep (rows cols : Nat) : List (List (Nat × Nat)) :=
  (List.range rows).map (fun r => sweepRow r cols)

/-- All tiles produced by the sweep, in capture order. -/
def sweepTiles (rows cols : Nat) : List (Nat × Nat) :=
  (sweep rows cols).flatten

/-- Strict row-major order on grid coordinates: earlier row, or same
row and earlier column. -/
def rowMajorLt (a b : Nat × Nat) : Prop :=
  a.1 < b.1 ∨ (a.1 = b.1 ∧ a.2 < b.2)

/-!  Stitching (src/antirizz.js lines 289-313). -/

/-- Tile width used by the stitcher, src/antirizz.js line 291. -/
def tileW : ℤ := VIEWPORT_width

/-- Tile height used by the stitcher, src/antirizz.js line 292. -/
def tileH : ℤ := VIEWPORT_height

/-- Horizontal stitch offset per column, src/antirizz.js line 293. -/
def effectiveStepX : ℤ := stepXmag

/-- Vertical stitch offset per row, src/antirizz.js line 294. -/
def effectiveStepY : ℤ := stepYmag

/-- The composite produced by the stitcher: the allocated canvas
dimensions plus the list of drawImage operations performed on it,
each recorded as (image, dx, dy) exactly as issued at line 311. -/
structure Composite (α : Type) where
  width : ℤ
  height : ℤ
  draws : List (α × ℤ × ℤ)
deriving DecidableEq, Repr

/-- The drawImage calls of the stitch loop (src/antirizz.js lines
304-313): for r over the saved rows and c over the row's entries,
skip the tile when its file does not exist (line 307: continue),
otherwise draw it at (c * effectiveStepX, r * effectiveStepY). -/
def stitchDraws {α : Type} (saved : List (List α)) (tileExists : α → Bool) :
    List (α × ℤ × ℤ) :=
  saved.enum.flatMap (fun p =>
    p.2.enum.filterMap (fun q =>
      if tileExists q.2 then
        some (q.2, (q.1 : ℤ) * effectiveStepX, (p.1 : ℤ) * effectiveStepY)
      else none))

/-- The stitcher (src/antirizz.js lines 291-313): allocate a canvas of
(cols-1)*effectiveStepX + tileW by (rows-1)*effectiveStepY + tileH
(lines 296-297, 301) and perform the draw loop. -/
def stitch {α : Type} (cols rows : ℤ) (saved : List (List α))
    (tileExists : α → Bool) : Composite α :=
  { width := (cols - 1) * effectiveStepX + tileW
  , height := (rows - 1) * effectiveStepY + tileH
  , draws := stitchDraws saved tileExists }

/-!  Frame capture with retry (captureCanvasBuffer, src/antirizz.js
lines 63-84).  The outcome of attempt number i is abstracted as
att i : Option α (none covers both a null toDataURL and a thrown
conversion error).  The run records the observable event trace:
every attempt, and the fixed 300 ms wait performed after each failed
attempt (line 80). -/

/-- Observable events of a capture run. -/
inductive CapEvent where
  | attempt (i : Nat)
  | delay (ms : Nat)
deriving DecidableEq, Repr

/-- The retry loop of captureCanvasBuffer: attempts are numbered from
1 to retries (line 64); a successful attempt returns its image at
once; a failed attempt is followed by a 300 ms wait; exhausting the
loop throws (line 83), modelled as none. -/
def captureRun {α : Type} (att : Nat → Option α) :
    Nat → Nat → List CapEvent × Option α
  | _, 0 => ([], none)
  | i, fuel + 1 =>
    match att i with
    | some v => ([CapEvent.attempt i], some v)
    | none =>
      let rest := captureRun att (i + 1) fuel
      (CapEvent.attempt i :: CapEvent.delay 300 :: rest.1, rest.2)

/-- captureCanvasBuffer(retries = RETRY_ATTEMPTS), src/antirizz.js
line 63. -/
def captureCanvasBuffer {α : Type} (att : Nat → Option α)
    (retries : Nat := RETRY_ATTEMPTS) : List CapEvent × Option α :=
  captureRun att 1 retries

/-- Number of capture attempts in an event trace. -/
def numAttempts (evs : List CapEvent) : Nat :=
  (evs.filter (fun e => match e with | CapEvent.attempt _ => true | _ => false)).length

/-- Adjacency discipline of the capture trace: an attempt is followed
only by the fixed 300 ms delay, and a delay only by the next
attempt. -/
def capSep : CapEvent → CapEvent → Prop
  | CapEvent.attempt _, CapEvent.delay m => m = 300
  | CapEvent.delay _, CapEvent.attempt _ => True
  | _, _ => False

/-!  Pan displacement bookkeeping.  dragPan (src/antirizz.js lines
87-113) issues one relative move of (deltaX, deltaY); phases are
modelled by the list of deltas they issue, and the net displacement
is the componentwise sum. -/

/-- Scan directions of findEdgeHoriz. -/
inductive HDir where
  | right
  | left
deriving DecidableEq, Repr

/-- Scan directions of findEdgeVert. -/
inductive VDir where
  | down
  | up
deriving DecidableEq, Repr

/-- Per-iteration horizontal scan delta, src/antirizz.js line 129:
Math.round(VIEWPORT.width * STEP_FRACTION) * (direction === "right" ? -1 : 1). -/
def hScanStep : HDir → ℤ
  | HDir.right => stepXmag * (-1)
  | HDir.left => stepXmag * 1

/-- Per-iteration vertical scan delta, src/antirizz.js line 171. -/
def vScanStep : VDir → ℤ
  | VDir.down => stepYmag * (-1)
  | VDir.up => stepYmag * 1

/-- Pan deltas issued by a horizontal edge scan that performed the
given number of steps (one dragPan(stepX, 0) per iteration,
line 134). -/
def hScanPans (dir : HDir) (steps : Nat) : List (ℤ × ℤ) :=
  List.replicate steps (hScanStep dir, 0)

/-- Pan deltas issued by a vertical edge scan (dragPan(0, stepY) per
iteration, line 176). -/
def vScanPans (dir : VDir) (steps : Nat) : List (ℤ × ℤ) :=
  List.replicate steps (0, vScanStep dir)

/-- revV, src/antirizz.js line 212: the ternary chain always yields 1,
so revV = -Math.round(VIEWPORT.height * STEP_FRACTION). -/
def revV : ℤ := -stepYmag

/-- revH, src/antirizz.js line 218. -/
def revH : ℤ := -stepXmag

/-- Vertical re-home pans, src/antirizz.js lines 213-216:
vertMeta.steps repetitions of dragPan(-0, -revV). -/
def rehomeVPans (steps : Nat) : List (ℤ × ℤ) :=
  List.replicate steps (-0, -revV)

/-- Horizontal re-home pans, src/antirizz.js lines 219-222:
horizMeta.steps repetitions of dragPan(-revH, 0). -/
def rehomeHPans (steps : Nat) : List (ℤ × ℤ) :=
  List.replicate steps (-revH, 0)

/-- All pan deltas issued from the start of the horizontal edge scan
to the end of re-homing, for the direction in which each axis
resolved and the step counts the scans returned (the charitable
reading that charges each axis only with its resolved scan's pans):
horizontal scan, then vertical scan, then vertical re-home, then
horizontal re-home (src/antirizz.js lines 160-222). -/
def edgePhasePans (hDir : HDir) (vDir : VDir) (hSteps vSteps : Nat) :
    List (ℤ × ℤ) :=
  hScanPans hDir hSteps ++ vScanPans vDir vSteps ++
    rehomeVPans vSteps ++ rehomeHPans hSteps

/-- Net displacement of a sequence of pan deltas. -/
def netDisp (pans : List (ℤ × ℤ)) : ℤ × ℤ :=
  pans.foldl (fun acc d => (acc.1 + d.1, acc.2 + d.2)) (0, 0)

/-- The extra pre-sweep alignment pans, src/antirizz.js lines 243-247:
three dragPan(stepX, 0), three dragPan(0, stepY), then three
dragPan(-stepX, 0) and three dragPan(0, -stepY), with stepX, stepY
the positive step magnitudes of lines 239-240. -/
def alignPans : List (ℤ × ℤ) :=
  List.replicate 3 (stepXmag, 0) ++ List.replicate 3 (0, stepYmag) ++
    List.replicate 3 (-stepXmag, 0) ++ List.replicate 3 (0, -stepYmag)

end Antirizz

namespace Scraper

/-- The JavaScript values computeDays can receive and produce: null,
a finite number (exact rational), the two infinities, or NaN. -/
inductive JVal where
  | null
  | num (q : ℚ)
  | posInf
  | negInf
  | nan
deriving DecidableEq, Repr

/-- JavaScript isFinite on a non-null JVal. -/
def jsIsFinite : JVal → Bool
  | JVal.num _ => true
  | _ => false

/-- computeDays, src/.github/workflows/scraper.js lines 31-39:
null out on a null bank or upkeep, on a non-finite upkeep and on a
zero upkeep; otherwise divide and apply the documented rule — days
greater than 1 are ceiled, anything else is Math.rounded.  Division
with a non-finite or NaN bank follows the JavaScript semantics
(infinities keep their sign against a positive divisor and flip it
against a negative one, NaN propagates, and ceil/round fix the
non-finite values). -/
def computeDays (bank upkeep : JVal) : JVal :=
  if bank = JVal.null ∨ upkeep = JVal.null then JVal.null
  else
    match upkeep with
    | JVal.num u =>
      if u = 0 then JVal.null
      else
        match bank with
        | JVal.num b =>
          let days := b / u
          if 1 < days then JVal.num ((⌈days⌉ : ℤ) : ℚ)
          else JVal.num ((Antirizz.mathRound days : ℤ) : ℚ)
        | JVal.posInf => if 0 < u then JVal.posInf else JVal.negInf
        | JVal.negInf => if 0 < u then JVal.negInf else JVal.posInf
        | _ => JVal.nan
    | _ => JVal.null

end Scraper

namespace Antirizz

/-! Helper lemmas about net displacement. -/

theorem foldl_disp (pans : List (ℤ × ℤ)) : ∀ a : ℤ × ℤ,
    pans.foldl (fun acc d => (acc.1 + d.1, acc.2 + d.2)) a =
      (a.1 + (netDisp pans).1, a.2 + (netDisp pans).2) := by
  induction pans with
  | nil => intro a; simp [netDisp]
  | cons d tl ih =>
    intro a
    simp only [netDisp, List.foldl_cons] at *
    rw [ih, ih (((0 : ℤ), (0 : ℤ)).1 + d.1, ((0 : ℤ), (0 : ℤ)).2 + d.2)]
    simp
    constructor <;> ring

theorem netDisp_append (l₁ l₂ : List (ℤ × ℤ)) :
    netDisp (l₁ ++ l₂) =
      ((netDisp l₁).1 + (netDisp l₂).1, (netDisp l₁).2 + (netDisp l₂).2) := by
  simp only [netDisp, List.foldl_append]
  rw [foldl_disp]
  simp [netDisp]

theorem netDisp_replicate (n : Nat) (d : ℤ × ℤ) :
    netDisp (List.replicate n d) = (n * d.1, n * d.2) := by
  induction n with
  | zero => simp [netDisp]
  | succ m ih =>
    rw [List.replicate_succ]
    show netDisp (d :: List.replicate m d) = _
    simp only [netDisp, List.foldl_cons]
    rw [foldl_disp]
    show ((0 : ℤ) + d.1 + _, (0 : ℤ) + d.2 + _) = _
    rw [ih]
    simp only [Prod.mk.injEq]
    constructor <;> push_cast <;> ring

theorem stepXmag_eq : stepXmag = 960 := by
  norm_num [stepXmag, mathRound, VIEWPORT_width, STEP_FRACTION]

theorem stepYmag_eq : stepYmag = 600 := by
  norm_num [stepYmag, mathRound, VIEWPORT_height, STEP_FRACTION]

/-- C4: the grid dimensions are stepsToEdge + 1 per axis; horizontal
steps 4 and vertical steps 2 yield 5 columns and 3 rows. -/
theorem grid_sizing :
    (∀ horizMeta vertMeta : Nat × Nat,
        (gridFromScans horizMeta vertMeta).cols = horizMeta.1 + 1 ∧
        (gridFromScans horizMeta vertMeta).rows = vertMeta.1 + 1) ∧
    gridFromScans (4, 0) (2, 0) = { cols := 5, rows := 3 } :=
  ⟨fun _ _ => ⟨rfl, rfl⟩, rfl⟩

/-- C10 (confirmed): the pre-sweep alignment sequence is
displacement-neutral: projected on the x axis it is three pans of
+stepX then three of -stepX, projected on the y axis three of +stepY
then three of -stepY, and its net displacement is zero. -/
theorem alignPans_neutral :
    alignPans.filter (fun d => d.1 != 0) =
      List.replicate 3 (stepXmag, (0 : ℤ)) ++ List.replicate 3 (-stepXmag, 0) ∧
    alignPans.filter (fun d => d.2 != 0) =
      List.replicate 3 ((0 : ℤ), stepYmag) ++ List.replicate 3 (0, -stepYmag) ∧
    netDisp alignPans = (0, 0) := by
  simp only [alignPans, stepXmag_eq, stepYmag_eq]
  decide

/-- C8 counterexample: when the vertical axis resolved via the
fallback direction (up) after one step and the horizontal axis after
zero, the scan displaced the viewport by (0, 600) and the re-home
pans add another (0, 600) instead of cancelling it, leaving a net
displacement of (0, 1200). -/
theorem rehome_fallback_cex :
    netDisp (edgePhasePans HDir.right VDir.up 0 1) = (0, 1200) ∧
    ((0, 1200) : ℤ × ℤ) ≠ (0, 0) := by
  constructor
  · simp only [edgePhasePans, hScanPans, vScanPans, rehomeVPans, rehomeHPans,
      hScanStep, vScanStep, revV, revH, stepXmag_eq, stepYmag_eq]
    decide
  · decide

/-- C8 (amended): when both axes resolve in their primary scan
direction (horizontal right, vertical down), the re-home pans sum to
the exact inverse of the two scans' net displacement: the whole
edge-scan-plus-re-home phase has net displacement zero. -/
theorem rehome_cancels_primary (hSteps vSteps : Nat) :
    netDisp (edgePhasePans HDir.right VDir.down hSteps vSteps) = (0, 0) := by
  simp only [edgePhasePans, hScanPans, vScanPans, rehomeVPans, rehomeHPans,
    netDisp_append, netDisp_replicate, hScanStep, vScanStep, revV, revH]
  simp only [Prod.mk.injEq]
  constructor <;> ring

end Antirizz

namespace Antirizz

/-! Edge-scan lemmas. -/

/-- A capture differing from the running last hash resets the counter
and advances the scan. -/
theorem scanAux_step_ne (capture : Nat → Nat) (th i fuel c last : Nat)
    (h : capture i ≠ last) (hth : 0 < th) :
    scanAux capture th i (fuel + 1) c last =
      scanAux capture th (i + 1) fuel 0 (capture i) := by
  simp only [scanAux]
  rw [if_neg h, if_neg (by omega)]

/-- Three consecutive captures equal to the running last hash finish
the scan with steps = i + 3. -/
theorem scanAux_run3 (capture : Nat → Nat) (i fuel last : Nat)
    (h0 : capture i = last) (h1 : capture (i + 1) = last)
    (h2 : capture (i + 2) = last) (hf : 3 ≤ fuel) :
    scanAux capture 3 i fuel 0 last = some (i + 3, last) := by
  obtain ⟨f, rfl⟩ : ∃ f, fuel = f + 3 := ⟨fuel - 3, by omega⟩
  show scanAux capture 3 i (f + 2 + 1) 0 last = _
  simp only [scanAux]
  rw [if_pos h0, if_neg (by omega)]
  show scanAux capture 3 (i + 1) (f + 1 + 1) 1 last = _
  simp only [scanAux]
  rw [if_pos h1, if_neg (by omega)]
  show scanAux capture 3 (i + 2) (f + 1) 2 last = _
  simp only [scanAux]
  rw [if_pos h2, if_pos (by omega)]

/-- Running the scan across a phase of captures each differing from
its predecessor just advances the position, keeping the counter at
zero. -/
theorem scanAux_distinct_phase (capture : Nat → Nat) (th : Nat) (hth : 0 < th) :
    ∀ (N i fuel last : Nat), N ≤ fuel →
      (∀ j, j < N → capture (i + j) ≠ if j = 0 then last else capture (i + j - 1)) →
      scanAux capture th i fuel 0 last =
        scanAux capture th (i + N) (fuel - N) 0
          (if N = 0 then last else capture (i + N - 1)) := by
  intro N
  induction N with
  | zero => intro i fuel last _ _; simp
  | succ n ih =>
    intro i fuel last hfuel hdist
    obtain ⟨f, rfl⟩ : ∃ f, fuel = f + 1 := ⟨fuel - 1, by omega⟩
    have h0 : capture i ≠ last := by
      have h := hdist 0 (by omega)
      simpa using h
    rw [scanAux_step_ne capture th i f 0 last h0 hth]
    have hrec := ih (i + 1) f (capture i) (by omega) ?_
    · rw [hrec]
      have e1 : i + 1 + n = i + (n + 1) := by omega
      have e2 : f - n = f + 1 - (n + 1) := by omega
      rw [e1, e2]
      congr 1
      rw [if_neg (show ¬ n + 1 = 0 by omega)]
      cases n with
      | zero => norm_num
      | succ m => rw [if_neg (by omega)]
    · intro j hj
      have h := hdist (j + 1) (by omega)
      have e4 : i + (j + 1) = i + 1 + j := by omega
      rw [e4] at h
      rw [if_neg (by omega)] at h
      cases j with
      | zero => simpa using h
      | succ m =>
        have e5 : i + 1 + (m + 1) - 1 = i + 1 + m := by omega
        rw [e5] at h
        rw [if_neg (by omega)]
        have e6 : i + 1 + (m + 1) - 1 = i + 1 + m := by omega
        rw [e6]
        exact h

/-- C1 (amended): on a synthetic viewport whose captures are N frames
each differing from the previous one followed by the last of them
repeating forever, the edge scan succeeds and reports
stepsToEdge = N + MAX_IDENTICAL_TO_EDGE pan iterations (the N pans
that changed the frame plus the threshold-many pans whose captures
were identical), together with the repeated final fingerprint. -/
theorem scanAxis_synthetic (capture : Nat → Nat) (init N : Nat)
    (hdist : ∀ i, i < N → capture i ≠ if i = 0 then init else capture (i - 1))
    (hrep : ∀ i, N ≤ i → capture i = if N = 0 then init else capture (N - 1))
    (hcap : N + MAX_IDENTICAL_TO_EDGE ≤ EDGE_SCAN_CAP) :
    findEdge capture init =
      some (N + MAX_IDENTICAL_TO_EDGE, if N = 0 then init else capture (N - 1)) := by
  have hcap' : N + 3 ≤ 2000 := by
    simpa [MAX_IDENTICAL_TO_EDGE, EDGE_SCAN_CAP] using hcap
  show scanAux capture MAX_IDENTICAL_TO_EDGE 0 EDGE_SCAN_CAP 0 init = _
  rw [show MAX_IDENTICAL_TO_EDGE = 3 from rfl, show EDGE_SCAN_CAP = 2000 from rfl]
  rw [scanAux_distinct_phase capture 3 (by omega) N 0 2000 init (by omega) ?_]
  · have hN : ∀ k, capture (N + k) = if N = 0 then init else capture (N - 1) := by
      intro k; exact hrep (N + k) (by omega)
    rw [show (0 : Nat) + N = N by omega]
    rw [scanAux_run3 capture N (2000 - N) _ (by simpa using hN 0)
      (by simpa using hN 1) (by simpa using hN 2) (by omega)]
  · intro j hj
    have h := hdist j hj
    simpa using h

/-- A scan whose captures never repeat exhausts the iteration cap and
throws: findEdge returns none. -/
theorem findEdge_none_of_distinct (capture : Nat → Nat) (init : Nat)
    (h0 : capture 0 ≠ init) (hs : ∀ i, capture (i + 1) ≠ capture i) :
    findEdge capture init = none := by
  show scanAux capture MAX_IDENTICAL_TO_EDGE 0 EDGE_SCAN_CAP 0 init = _
  rw [show MAX_IDENTICAL_TO_EDGE = 3 from rfl, show EDGE_SCAN_CAP = 2000 from rfl]
  rw [scanAux_distinct_phase capture 3 (by omega) 2000 0 2000 init (by omega) ?_]
  · simp [scanAux]
  · intro j hj
    cases j with
    | zero => simpa using h0
    | succ m =>
      rw [if_neg (by omega)]
      have e : 0 + (m + 1) - 1 = m := by omega
      have e2 : 0 + (m + 1) = m + 1 := by omega
      rw [e, e2]
      exact hs m

/-- C1 counterexample: the synthetic viewport with N = 1 (every
capture returns the same fingerprint 1, distinct from the initial
fingerprint 0: one distinct frame, then the final frame repeats)
makes the edge scan return stepsToEdge = 4, not N = 1. -/
theorem scanAxis_stepsToEdge_cex :
    findEdge (fun _ => 1) 0 = some (4, 1) ∧ (4 : Nat) ≠ 1 := by
  constructor
  · decide
  · decide

/-- Witness for scanAxis_synthetic at N = 1: captures constantly 2
against initial fingerprint 5 give steps 1 + 3 = 4. -/
theorem scanAxis_synthetic_witness :
    findEdge (fun _ => 2) 5 = some (4, 2) := by
  have h := scanAxis_synthetic (fun _ => 2) 5 1
    (by intro i hi; have : i = 0 := by omega
        subst this; simp)
    (by intro i _; simp)
    (by decide)
  simpa [MAX_IDENTICAL_TO_EDGE] using h

/-- C7: the axis driver first scans one direction; only when that scan
throws EdgeNotFoundError does it retry, exactly once, in the
opposite direction; a fallback scan that finds the edge after k
steps resolves the axis with stepsToEdge = k, and the axis is fatal
only when both directions fail. -/
theorem direction_fallback (captFirst captSecond : Nat → Nat) (init : Nat) :
    (∀ k h, findEdge captFirst init = none →
        findEdge captSecond init = some (k, h) →
        driveAxis captFirst captSecond init = some (k, h)) ∧
    (findEdge captFirst init = none →
        scanAttempts captFirst init = [ScanAttempt.first, ScanAttempt.second]) ∧
    (∀ meta, findEdge captFirst init = some meta →
        driveAxis captFirst captSecond init = some meta ∧
        scanAttempts captFirst init = [ScanAttempt.first]) ∧
    (driveAxis captFirst captSecond init = none ↔
        findEdge captFirst init = none ∧ findEdge captSecond init = none) := by
  cases hf : findEdge captFirst init <;>
    simp [driveAxis, scanAttempts, hf]

/-- Witness for direction_fallback: a first direction whose captures
never repeat (cap exhausted) and a second direction with constant
captures resolve the axis through the fallback with steps 4. -/
theorem direction_fallback_witness :
    driveAxis (fun i => i + 1) (fun _ => 7) 0 = some (4, 7) := by
  have hnone : findEdge (fun i => i + 1) 0 = none :=
    findEdge_none_of_distinct (fun i => i + 1) 0
      (by show 0 + 1 ≠ 0; omega)
      (by intro i; show i + 1 + 1 ≠ i + 1; omega)
  exact (direction_fallback (fun i => i + 1) (fun _ => 7) 0).1 4 7 hnone (by decide)

end Antirizz

namespace Antirizz

/-- C3: a raster sweep over a rows x cols grid with every capture and
pan succeeding produces exactly rows * cols tiles, exactly one per
(row, column) pair of the grid, with no duplicates, in strict
row-major column-ascending capture order. -/
theorem sweep_completeness (rows cols : Nat) :
    (sweepTiles rows cols).length = rows * cols ∧
    (sweepTiles rows cols).Nodup ∧
    (∀ rc : Nat × Nat, rc ∈ sweepTiles rows cols ↔ rc.1 < rows ∧ rc.2 < cols) ∧
    List.Pairwise rowMajorLt (sweepTiles rows cols) := by
  have hpair : List.Pairwise rowMajorLt (sweepTiles rows cols) := by
    rw [sweepTiles, List.pairwise_flatten]
    refine ⟨?_, ?_⟩
    · intro l hl
      rw [sweep, List.mem_map] at hl
      obtain ⟨r, _, rfl⟩ := hl
      rw [sweepRow, List.pairwise_map]
      exact (List.pairwise_lt_range cols).imp (fun h => Or.inr ⟨rfl, h⟩)
    · rw [sweep, List.pairwise_map]
      refine (List.pairwise_lt_range rows).imp ?_
      intro r₁ r₂ h a ha b hb
      rw [sweepRow, List.mem_map] at ha hb
      obtain ⟨c₁, _, rfl⟩ := ha
      obtain ⟨c₂, _, rfl⟩ := hb
      exact Or.inl h
  refine ⟨?_, ?_, ?_, hpair⟩
  · rw [sweepTiles, List.length_flatten, sweep, List.map_map]
    have : (List.map (List.length ∘ fun r => sweepRow r cols) (List.range rows)) =
        List.map (fun _ => cols) (List.range rows) := by
      apply List.map_congr_left
      intro r _
      simp [sweepRow]
    rw [this, List.map_const', List.sum_replicate, List.length_range]
    simp [Nat.mul_comm]
  · exact hpair.imp (fun {a b} h => by
      intro hab
      subst hab
      rcases h with h | ⟨_, h⟩ <;> omega)
  · intro rc
    rw [sweepTiles, List.mem_flatten]
    constructor
    · rintro ⟨l, hl, hmem⟩
      rw [sweep, List.mem_map] at hl
      obtain ⟨r, hr, rfl⟩ := hl
      rw [sweepRow, List.mem_map] at hmem
      obtain ⟨c, hc, rfl⟩ := hmem
      rw [List.mem_range] at hr hc
      exact ⟨hr, hc⟩
    · rintro ⟨h1, h2⟩
      refine ⟨sweepRow rc.1 cols, ?_, ?_⟩
      · rw [sweep, List.mem_map]
        exact ⟨rc.1, List.mem_range.mpr h1, rfl⟩
      · rw [sweepRow, List.mem_map]
        exact ⟨rc.2, List.mem_range.mpr h2, rfl⟩

/-- Witness for sweep_completeness on the 2 x 3 grid: six tiles, and
tile (1, 2) is present. -/
theorem sweep_completeness_witness :
    (sweepTiles 2 3).length = 2 * 3 ∧ (1, 2) ∈ sweepTiles 2 3 :=
  ⟨(sweep_completeness 2 3).1,
    ((sweep_completeness 2 3).2.2.1 (1, 2)).mpr (by constructor <;> decide)⟩

/-! Stitch lemmas. -/

/-- Membership in the stitcher's draw list: a draw (t, dx, dy) is
issued exactly when t sits at some slot (r, c) of the saved grid,
its file exists, and the offsets are c * effectiveStepX and
r * effectiveStepY. -/
theorem mem_stitchDraws {α : Type} (saved : List (List α)) (ex : α → Bool)
    (t : α) (dx dy : ℤ) :
    (t, dx, dy) ∈ stitchDraws saved ex ↔
      ex t = true ∧ ∃ (r : Nat) (row : List α) (c : Nat), saved[r]? = some row ∧
        row[c]? = some t ∧
        dx = (c : ℤ) * effectiveStepX ∧ dy = (r : ℤ) * effectiveStepY := by
  rw [stitchDraws, List.mem_flatMap]
  constructor
  · rintro ⟨p, hp, hmem⟩
    rw [List.mem_filterMap] at hmem
    obtain ⟨q, hq, hg⟩ := hmem
    by_cases hex : ex q.2
    · rw [if_pos hex] at hg
      rw [Option.some.injEq, Prod.mk.injEq] at hg
      obtain ⟨ht, hg2⟩ := hg
      rw [Prod.mk.injEq] at hg2
      obtain ⟨hdx, hdy⟩ := hg2
      subst ht
      refine ⟨hex, p.1, p.2, q.1, ?_, ?_, hdx.symm, hdy.symm⟩
      · rw [← List.mk_mem_enum_iff_getElem?]
        exact hp
      · rw [← List.mk_mem_enum_iff_getElem?]
        exact hq
    · rw [if_neg hex] at hg
      exact absurd hg (by simp)
  · rintro ⟨hex, r, row, c, hr, hc, hdx, hdy⟩
    refine ⟨(r, row), ?_, ?_⟩
    · rw [List.mk_mem_enum_iff_getElem?]
      exact hr
    · rw [List.mem_filterMap]
      refine ⟨(c, t), ?_, ?_⟩
      · rw [List.mk_mem_enum_iff_getElem?]
        exact hc
      · rw [if_pos hex]
        rw [hdx, hdy]

/-- C2 counterexample: a 2 x 1 grid whose slot (0, 1) has no stored
tile does not make the stitcher fail: the missing slot is skipped
(line 307 of src/antirizz.js) and a non-empty composite buffer is
still produced, drawing the one present tile. -/
theorem stitch_missing_tile_cex :
    stitch 2 1 [[0, 1]] (fun t => t == 0) =
      { width := 2240, height := 800, draws := [(0, 0, 0)] } ∧
    (stitch 2 1 [[0, 1]] (fun t => t == 0)).draws ≠ [] := by
  have hx : effectiveStepX = 960 := stepXmag_eq
  have hy : effectiveStepY = 600 := stepYmag_eq
  constructor
  · rw [stitch, stitchDraws]
    simp only [tileW, tileH, VIEWPORT_width, VIEWPORT_height, hx, hy]
    decide
  · rw [stitch, stitchDraws]
    simp only [hx, hy]
    decide

/-- C2 (amended): the stitcher never fails on a missing tile: it
always produces a composite buffer, and a grid slot whose tile is
absent from the store is silently skipped — a draw is issued for a
slot exactly when its tile exists, so missing slots merely leave
their region unpainted. -/
theorem stitch_skips_missing {α : Type} (cols rows : ℤ)
    (saved : List (List α)) (ex : α → Bool) (t : α) (dx dy : ℤ) :
    (t, dx, dy) ∈ (stitch cols rows saved ex).draws ↔
      ex t = true ∧ ∃ (r : Nat) (row : List α) (c : Nat), saved[r]? = some row ∧
        row[c]? = some t ∧
        dx = (c : ℤ) * effectiveStepX ∧ dy = (r : ℤ) * effectiveStepY :=
  mem_stitchDraws saved ex t dx dy

/-- Witness for stitch_skips_missing: in the 2 x 1 grid with tile 1
missing, the present tile 0 is drawn at the origin. -/
theorem stitch_skips_missing_witness :
    ((0 : Nat), (0 : ℤ), (0 : ℤ)) ∈ (stitch 2 1 [[0, 1]] (fun t => t == 0)).draws :=
  (stitch_skips_missing 2 1 [[0, 1]] (fun t => t == 0) 0 0 0).mpr
    ⟨rfl, 0, [0, 1], 0, rfl, rfl, by simp, by simp⟩

/-- C5: the composite buffer is sized exactly
(cols - 1) * effectiveStepX + tileW by (rows - 1) * effectiveStepY + tileH
with effectiveStepX = round(1280 * 0.75) = 960 and
effectiveStepY = round(800 * 0.75) = 600; on a 3 x 2 grid this is
3200 by 1400; and every tile draw is issued at offset
(column * 960, row * 600). -/
theorem stitch_composite_sizing :
    effectiveStepX = 960 ∧ effectiveStepY = 600 ∧
    (∀ (cols rows : ℤ) (saved : List (List Nat)) (ex : Nat → Bool),
        (stitch cols rows saved ex).width = (cols - 1) * 960 + 1280 ∧
        (stitch cols rows saved ex).height = (rows - 1) * 600 + 800) ∧
    (∀ (saved : List (List Nat)) (ex : Nat → Bool),
        (stitch 3 2 saved ex).width = 3200 ∧
        (stitch 3 2 saved ex).height = 1400) ∧
    (∀ (saved : List (List Nat)) (ex : Nat → Bool) (t : Nat) (dx dy : ℤ),
        (t, dx, dy) ∈ (stitch 3 2 saved ex).draws →
          ∃ r c : Nat, dx = (c : ℤ) * 960 ∧ dy = (r : ℤ) * 600) := by
  have hx : effectiveStepX = 960 := stepXmag_eq
  have hy : effectiveStepY = 600 := stepYmag_eq
  refine ⟨hx, hy, ?_, ?_, ?_⟩
  · intro cols rows saved ex
    constructor
    · rw [stitch]
      simp only [hx, tileW, VIEWPORT_width]
      norm_num
    · rw [stitch]
      simp only [hy, tileH, VIEWPORT_height]
      norm_num
  · intro saved ex
    constructor
    · rw [stitch]
      simp only [hx, tileW, VIEWPORT_width]
      norm_num
    · rw [stitch]
      simp only [hy, tileH, VIEWPORT_height]
      norm_num
  · intro saved ex t dx dy hmem
    rw [stitch] at hmem
    obtain ⟨_, r, _, c, _, _, hdx, hdy⟩ := (mem_stitchDraws saved ex t dx dy).mp hmem
    exact ⟨r, c, by rw [hdx, hx], by rw [hdy, hy]⟩

/-- Witness for stitch_composite_sizing: concrete dimensions of the
3 x 2 stitch and the offset decomposition of a concrete draw. -/
theorem stitch_composite_sizing_witness :
    (stitch 3 2 [[0, 1]] (fun _ => true)).width = 3200 ∧
    ∃ r c : Nat, (960 : ℤ) = (c : ℤ) * 960 ∧ (0 : ℤ) = (r : ℤ) * 600 := by
  constructor
  · exact (stitch_composite_sizing.2.2.2.1 [[0, 1]] (fun _ => true)).1
  · refine stitch_composite_sizing.2.2.2.2 [[0, 1]] (fun _ => true) 1 960 0 ?_
    show ((1 : Nat), (960 : ℤ), (0 : ℤ)) ∈ stitchDraws [[0, 1]] (fun _ => true)
    rw [mem_stitchDraws]
    refine ⟨rfl, 0, [0, 1], 1, rfl, rfl, ?_, by simp⟩
    rw [show effectiveStepX = 960 from stepXmag_eq]
    norm_num

end Antirizz

namespace Antirizz

/-! Capture-retry lemmas. -/

theorem captureRun_numAttempts_le {α : Type} (att : Nat → Option α) :
    ∀ (fuel i : Nat), numAttempts (captureRun att i fuel).1 ≤ fuel := by
  intro fuel
  induction fuel with
  | zero => intro i; exact le_rfl
  | succ f ih =>
    intro i
    cases hatt : att i with
    | some v => simp [captureRun, hatt, numAttempts]
    | none =>
      have hstep : (captureRun att i (f + 1)).1 =
          CapEvent.attempt i :: CapEvent.delay 300 :: (captureRun att (i + 1) f).1 := by
        simp [captureRun, hatt]
      rw [hstep]
      have hcons : numAttempts (CapEvent.attempt i :: CapEvent.delay 300 ::
          (captureRun att (i + 1) f).1) =
          numAttempts ((captureRun att (i + 1) f).1) + 1 := by
        simp [numAttempts, List.filter_cons]
      rw [hcons]
      have := ih (i + 1)
      omega

theorem captureRun_none_iff {α : Type} (att : Nat → Option α) :
    ∀ (fuel i : Nat), (captureRun att i fuel).2 = none ↔
      ∀ j, i ≤ j → j < i + fuel → att j = none := by
  intro fuel
  induction fuel with
  | zero =>
    intro i
    simp only [captureRun]
    constructor
    · intro _ j h1 h2
      omega
    · intro _
      trivial
  | succ f ih =>
    intro i
    cases hatt : att i with
    | some v =>
      simp only [captureRun, hatt]
      constructor
      · intro h
        exact absurd h (by simp)
      · intro h
        exact absurd (h i (by omega) (by omega)) (by simp [hatt])
    | none =>
      simp only [captureRun, hatt]
      rw [ih (i + 1)]
      constructor
      · intro h j h1 h2
        rcases Nat.eq_or_lt_of_le h1 with rfl | hlt
        · exact hatt
        · exact h j hlt (by omega)
      · intro h j h1 h2
        exact h j (by omega) (by omega)

theorem captureRun_first_success {α : Type} (att : Nat → Option α) :
    ∀ (fuel i : Nat) (v : α), (captureRun att i fuel).2 = some v →
      ∃ k, i ≤ k ∧ k < i + fuel ∧ att k = some v ∧
        ∀ j, i ≤ j → j < k → att j = none := by
  intro fuel
  induction fuel with
  | zero =>
    intro i v h
    exact absurd h (by simp [captureRun])
  | succ f ih =>
    intro i v h
    cases hatt : att i with
    | some w =>
      simp only [captureRun, hatt, Option.some.injEq] at h
      subst h
      exact ⟨i, by omega, by omega, hatt, fun j h1 h2 => by omega⟩
    | none =>
      simp only [captureRun, hatt] at h
      obtain ⟨k, hk1, hk2, hk3, hk4⟩ := ih (i + 1) v h
      refine ⟨k, by omega, by omega, hk3, ?_⟩
      intro j h1 h2
      rcases Nat.eq_or_lt_of_le h1 with rfl | hlt
      · exact hatt
      · exact hk4 j hlt h2

theorem captureRun_chain {α : Type} (att : Nat → Option α) :
    ∀ (fuel i : Nat), List.Chain' capSep (captureRun att i fuel).1 ∧
      ((captureRun att i fuel).1 = [] ∨
        ∃ rest, (captureRun att i fuel).1 = CapEvent.attempt i :: rest) := by
  intro fuel
  induction fuel with
  | zero => intro i; exact ⟨by simp [captureRun], Or.inl rfl⟩
  | succ f ih =>
    intro i
    cases hatt : att i with
    | some v =>
      refine ⟨?_, Or.inr ⟨[], by simp [captureRun, hatt]⟩⟩
      simp only [captureRun, hatt]
      exact List.chain'_singleton _
    | none =>
      obtain ⟨hchain, hhead⟩ := ih (i + 1)
      refine ⟨?_, Or.inr ⟨CapEvent.delay 300 :: (captureRun att (i + 1) f).1,
        by simp [captureRun, hatt]⟩⟩
      simp only [captureRun, hatt]
      rw [List.chain'_cons]
      refine ⟨by trivial, ?_⟩
      rw [List.chain'_cons']
      refine ⟨?_, hchain⟩
      intro y hy
      rcases hhead with hnil | ⟨rest, hcons⟩
      · rw [hnil] at hy
        simp at hy
      · rw [hcons] at hy
        simp only [List.head?_cons, Option.mem_def, Option.some.injEq] at hy
        subst hy
        trivial

/-- C6: frame capture makes at most retries attempts (and the
configured default is RETRY_ATTEMPTS = 3); every failed attempt is
followed by the fixed 300 ms delay (the trace alternates attempts
and delays); if no attempt yields a usable image the run fails
(CaptureError, modelled as none) after exactly the configured
attempts; and on success the value returned is that of the first
usable attempt, every earlier attempt having failed. -/
theorem capture_retry_spec {α : Type} (att : Nat → Option α) (retries : Nat) :
    RETRY_ATTEMPTS = 3 ∧
    numAttempts (captureCanvasBuffer att retries).1 ≤ retries ∧
    List.Chain' capSep (captureCanvasBuffer att retries).1 ∧
    ((captureCanvasBuffer att retries).2 = none ↔
      ∀ i, 1 ≤ i → i ≤ retries → att i = none) ∧
    (∀ v, (captureCanvasBuffer att retries).2 = some v →
      ∃ k, 1 ≤ k ∧ k ≤ retries ∧ att k = some v ∧
        ∀ j, 1 ≤ j → j < k → att j = none) := by
  refine ⟨rfl, captureRun_numAttempts_le att retries 1,
    (captureRun_chain att retries 1).1, ?_, ?_⟩
  · rw [show captureCanvasBuffer att retries = captureRun att 1 retries from rfl,
      captureRun_none_iff att retries 1]
    constructor
    · intro h i h1 h2
      exact h i h1 (by omega)
    · intro h i h1 h2
      exact h i h1 (by omega)
  · intro v h
    obtain ⟨k, hk1, hk2, hk3, hk4⟩ := captureRun_first_success att retries 1 v h
    exact ⟨k, hk1, by omega, hk3, hk4⟩

/-- The attempt-outcome sequence used by the capture witness: the
first two attempts fail, the third succeeds. -/
def attemptSeq : Nat → Option Nat := fun i => if i = 3 then some 42 else none

/-- Witness for capture_retry_spec: with the first two attempts
failing and the third returning an image, the run returns that image
and its trace is attempt, delay, attempt, delay, attempt. -/
theorem capture_retry_spec_witness :
    ∃ k, 1 ≤ k ∧ k ≤ 3 ∧ attemptSeq k = some 42 ∧
      ∀ j, 1 ≤ j → j < k → attemptSeq j = none :=
  (capture_retry_spec attemptSeq 3).2.2.2.2 42 (by decide)

end Antirizz

namespace Scraper

/-- C9: computeDays is total and its division is guarded: a null bank
or upkeep, a zero upkeep and a non-finite upkeep all yield null
before any division; for finite operands with nonzero upkeep it
returns the ceiling of bank / upkeep when that ratio exceeds 1, and
Math.round of it (the nearest integer, half up) otherwise. -/
theorem computeDays_spec :
    (∀ b u : JVal,
        b = JVal.null ∨ u = JVal.null ∨ u = JVal.num 0 ∨
          u = JVal.posInf ∨ u = JVal.negInf ∨ u = JVal.nan →
        computeDays b u = JVal.null) ∧
    (∀ b u : ℚ, u ≠ 0 →
        computeDays (JVal.num b) (JVal.num u) =
          JVal.num (if 1 < b / u then ((⌈b / u⌉ : ℤ) : ℚ)
            else ((Antirizz.mathRound (b / u) : ℤ) : ℚ))) := by
  constructor
  · intro b u h
    rcases h with h | h | h | h | h | h <;> subst h
    · simp [computeDays]
    · simp [computeDays]
    · by_cases hb : b = JVal.null <;> simp [computeDays, hb]
    · by_cases hb : b = JVal.null <;> simp [computeDays, hb]
    · by_cases hb : b = JVal.null <;> simp [computeDays, hb]
    · by_cases hb : b = JVal.null <;> simp [computeDays, hb]
  · intro b u hu
    simp [computeDays, hu]
    rw [apply_ite JVal.num]

/-- Witness for computeDays_spec: a bank of 7 against an upkeep of 2
gives ceil(3.5) = 4 days, and a null upkeep gives null. -/
theorem computeDays_spec_witness :
    computeDays (JVal.num 7) (JVal.num 2) = JVal.num 4 ∧
    computeDays (JVal.num 7) JVal.null = JVal.null := by
  constructor
  · have h := computeDays_spec.2 7 2 (by norm_num)
    rw [h]
    have hc : (⌈(7 : ℚ) / 2⌉ : ℤ) = 4 := by
      rw [Int.ceil_eq_iff]
      constructor <;> norm_num
    rw [if_pos (by norm_num : (1 : ℚ) < 7 / 2), hc]
    norm_num
  · exact computeDays_spec.1 (JVal.num 7) JVal.null (Or.inr (Or.inl rfl))

end Scraper
